import Mathlib

/-!
# The New Relic agent SDK wrapper (`newrelic.go`)

A shallow embedding of the Go wrapper around the New Relic agent SDK and the
properties of its marshalling code.

Modelling conventions.

* Go strings are Lean `String`s; a Go `error` is an `Option String` holding the
  text of the error (`none` is `nil`).
* Machine integers are `Int`.  A conversion to a signed type of `w` bits is
  `wrapSigned w`.  The source is built for Linux only, where the Go type `int`
  and the C type `long` have the same width (32 or 64 bits); that width is the
  field `bits` of the platform.  The C type `int` has 32 bits.
* A `float64` is its IEEE-754 bit pattern; the conversion to a C `double`
  keeps the pattern.
* The native library, `malloc` and `free` are an instrumented layer: every
  allocation, release and entry-point call is appended to a trace.  What the
  library answers is given by an arbitrary oracle over an arbitrary state.
-/

namespace NewRelic

/-! ## Machine integers -/

/-- Conversion of an integer to a signed two's-complement type of `w` bits. -/
def wrapSigned (w : Nat) (x : Int) : Int :=
  let r := x % 2 ^ w
  if r < 2 ^ (w - 1) then r else r - 2 ^ w

/-- The values of a signed type of `w` bits. -/
def Fits (w : Nat) (x : Int) : Prop := -(2 ^ (w - 1)) ≤ x ∧ x < 2 ^ (w - 1)

instance (w : Nat) (x : Int) : Decidable (Fits w x) := by
  unfold Fits; infer_instance

/-- The word widths of the Linux targets: Go `int` and C `long` are both 32 or
both 64 bits wide. -/
def WordBits (w : Nat) : Prop := w = 32 ∨ w = 64

/-! ## Status codes and errors -/

/-- The table `statusMap` of the source. -/
def statusMap : List (Int × String) :=
  [ (0, "ok"),
    (-0x10001, "other"),
    (-0x20001, "disabled"),
    (-0x30001, "invalid param"),
    (-0x30002, "invalid id"),
    (-0x40001, "transaction not started"),
    (-0x40002, "transaction in progress"),
    (-0x40003, "transaction not named") ]

/-- The function `nrError(i C.int, name string) error`.  `w` is the width of the
Go type `int`, to which `i` is converted before it is tested and looked up. -/
def nrError (w : Nat) (i : Int) (name : String) : Option String :=
  if wrapSigned w i < 0 then
    let status :=
      match statusMap.lookup (wrapSigned w i) with
      | some s => s
      | none => "unknown"
    some ("newrelic: " ++ name ++ ": " ++ status)
  else
    none

/-- The text `text` has `sub` as a substring. -/
def Contains (text sub : String) : Prop := sub.data <:+: text.data

instance (text sub : String) : Decidable (Contains text sub) := by
  unfold Contains; infer_instance

/-! ## The instrumented native layer -/

/-- Address of a native buffer. -/
abbrev Ptr := Nat

/-- The live native buffers with their bytes, most recent first. -/
abbrev Heap := List (Ptr × List UInt8)

/-- Entry points of the native library called by the wrapper. -/
inductive Entry
  | newrelic_register_message_handler
  | newrelic_init
  | newrelic_request_shutdown
  | newrelic_transaction_begin
  | newrelic_transaction_set_type_web
  | newrelic_transaction_set_type_other
  | newrelic_transaction_set_name
  | newrelic_transaction_set_category
  | newrelic_transaction_notice_error
  | newrelic_transaction_add_attribute
  | newrelic_segment_generic_begin
  | newrelic_segment_datastore_begin
  | newrelic_segment_external_begin
  | newrelic_segment_end
  | newrelic_transaction_set_request_url
  | newrelic_transaction_end
  | newrelic_record_metric
  deriving DecidableEq, Repr

/-- Functions of the native library that the wrapper passes by address. -/
inductive CFn
  | newrelic_message_handler
  | newrelic_basic_literal_replacement_obfuscator
  deriving DecidableEq, Repr

/-- An argument of a native call. -/
inductive Arg
  | long (v : Int)
  | str (p : Ptr)
  | double (bitPattern : Nat)
  | fn (f : CFn)
  deriving DecidableEq, Repr

/-- What the instrumented layer records: `alloc p bytes` for a buffer made by
`C.CString`, `free p` for `C.free`, and `call e args mem rv` for a call of the
entry point `e` with arguments `args`, made while the live buffers were `mem`,
that returned `rv`. -/
inductive Event
  | alloc (p : Ptr) (bytes : List UInt8)
  | free (p : Ptr)
  | call (e : Entry) (args : List Arg) (mem : Heap) (rv : Int)
  deriving DecidableEq

/-- The platform under the wrapper: the word width, the allocator (which
address it hands out given the live buffers) and the native library as an
oracle over its own state `σ`.  The integer the oracle gives is the C value the
entry point returns; the theorems say where it has to be a value of the C type
(`Fits 32` for an `int`, `Fits bits` for a `long`). -/
structure Platform (σ : Type) where
  bits : Nat
  malloc : Heap → Ptr
  native : Entry → List Arg → Heap → σ → Int × σ

/-- The allocator never hands out the address of a live buffer. -/
def Platform.Fresh {σ : Type} (P : Platform σ) : Prop :=
  ∀ h : Heap, P.malloc h ∉ h.map Prod.fst

/-- State of the world around the wrapper. -/
structure World (σ : Type) where
  lib : σ
  heap : Heap
  trace : List Event

/-- Computations of the wrapper: functions that change the world. -/
def Shim (σ : Type) (α : Type) : Type := World σ → α × World σ

instance (σ : Type) : Monad (Shim σ) where
  pure a := fun m => (a, m)
  bind x f := fun m => f (x m).1 (x m).2

/-- The bytes of the buffer `C.CString(s)`: the bytes of `s` and a final zero. -/
def cBytes (s : String) : List UInt8 := s.toUTF8.data.toList ++ [0]

/-- Removal of the buffer at `p` from the live buffers. -/
def release (p : Ptr) : Heap → Heap
  | [] => []
  | (q, b) :: h => if q = p then h else (q, b) :: release p h

/-- The call `C.CString(s)`: a new buffer holding `cBytes s`. -/
def CString {σ : Type} (P : Platform σ) (s : String) : Shim σ Ptr := fun m =>
  let p := P.malloc m.heap
  (p, { m with heap := (p, cBytes s) :: m.heap,
               trace := m.trace ++ [Event.alloc p (cBytes s)] })

/-- The call `C.free(unsafe.Pointer(p))`. -/
def free {σ : Type} (p : Ptr) : Shim σ Unit := fun m =>
  ((), { m with heap := release p m.heap, trace := m.trace ++ [Event.free p] })

/-- A call of the entry point `e` of the native library. -/
def nativeCall {σ : Type} (P : Platform σ) (e : Entry) (args : List Arg) : Shim σ Int :=
  fun m =>
    let r := P.native e args m.heap m.lib
    (r.1, { m with lib := r.2, trace := m.trace ++ [Event.call e args m.heap r.1] })

/-! ## The operations of the wrapper

Deferred calls run when the function returns, last deferred first, after the
returned value has been computed. -/

/-- The function `Init` of `newrelic.go` (lines 44-56). -/
def Init {σ : Type} (P : Platform σ) (license appName lang langVersion : String) :
    Shim σ (Option String) := do
  let _ ← nativeCall P .newrelic_register_message_handler [.fn .newrelic_message_handler]
  let clicense ← CString P license
  let cappName ← CString P appName
  let clang ← CString P lang
  let clangVersion ← CString P langVersion
  let rv ← nativeCall P .newrelic_init [.str clicense, .str cappName, .str clang, .str clangVersion]
  let r := nrError P.bits rv "initialize"
  free clangVersion
  free clang
  free cappName
  free clicense
  return r

/-- The function `RequestShutdown` of `newrelic.go` (lines 58-63). -/
def RequestShutdown {σ : Type} (P : Platform σ) (reason : String) : Shim σ (Option String) := do
  let ptr ← CString P reason
  let rv ← nativeCall P .newrelic_request_shutdown [.str ptr]
  let r := nrError P.bits rv "request shutdown"
  free ptr
  return r

/-- The function `BeginTransaction` of `newrelic.go` (lines 65-68). -/
def BeginTransaction {σ : Type} (P : Platform σ) : Shim σ Int := do
  let id ← nativeCall P .newrelic_transaction_begin []
  return wrapSigned 64 id

/-- The function `SetTransactionTypeWeb` of `newrelic.go` (lines 70-73). -/
def SetTransactionTypeWeb {σ : Type} (P : Platform σ) (txnID : Int) : Shim σ (Option String) := do
  let rv ← nativeCall P .newrelic_transaction_set_type_web [.long (wrapSigned P.bits txnID)]
  return nrError P.bits rv "set transaction type web"

/-- The function `SetTransactionTypeOther` of `newrelic.go` (lines 75-78). -/
def SetTransactionTypeOther {σ : Type} (P : Platform σ) (txnID : Int) :
    Shim σ (Option String) := do
  let rv ← nativeCall P .newrelic_transaction_set_type_other [.long (wrapSigned P.bits txnID)]
  return nrError P.bits rv "set transaction type other"

/-- The function `SetTransactionName` of `newrelic.go` (lines 80-85). -/
def SetTransactionName {σ : Type} (P : Platform σ) (txnID : Int) (name : String) :
    Shim σ (Option String) := do
  let cname ← CString P name
  let rv ← nativeCall P .newrelic_transaction_set_name [.long (wrapSigned P.bits txnID), .str cname]
  let r := nrError P.bits rv "set transaction name"
  free cname
  return r

/-- The function `SetTransactionCategory` of `newrelic.go` (lines 87-92). -/
def SetTransactionCategory {σ : Type} (P : Platform σ) (txnID : Int) (category : String) :
    Shim σ (Option String) := do
  let ccategory ← CString P category
  let rv ← nativeCall P .newrelic_transaction_set_category
    [.long (wrapSigned P.bits txnID), .str ccategory]
  let r := nrError P.bits rv "set transaction category"
  free ccategory
  return r

/-- The function `NoticeTransactionError` of `newrelic.go` (lines 94-111). -/
def NoticeTransactionError {σ : Type} (P : Platform σ) (txnID : Int)
    (exception_type error_message stack_trace delimiter : String) : Shim σ (Option String) := do
  let cexception_type ← CString P exception_type
  let cerror_message ← CString P error_message
  let cstack_trace ← CString P stack_trace
  let cdelimiter ← CString P delimiter
  let rv ← nativeCall P .newrelic_transaction_notice_error
    [.long (wrapSigned P.bits txnID), .str cexception_type, .str cerror_message,
      .str cstack_trace, .str cdelimiter]
  let r := nrError P.bits rv "notice transaction error"
  free cdelimiter
  free cstack_trace
  free cerror_message
  free cexception_type
  return r

/-- The function `AddTransactionAttribute` of `newrelic.go` (lines 113-120). -/
def AddTransactionAttribute {σ : Type} (P : Platform σ) (txnID : Int) (name value : String) :
    Shim σ (Option String) := do
  let cname ← CString P name
  let cvalue ← CString P value
  let rv ← nativeCall P .newrelic_transaction_add_attribute
    ([.long (wrapSigned P.bits txnID), .str cname, .str cvalue])
  let r := nrError P.bits rv "add transaction attribute"
  free cvalue
  free cname
  return r

/-- The function `BeginGenericSegment` of `newrelic.go` (lines 122-127). -/
def BeginGenericSegment {σ : Type} (P : Platform σ) (txnID parentID : Int) (name : String) :
    Shim σ Int := do
  let cname ← CString P name
  let id ← nativeCall P .newrelic_segment_generic_begin
    [.long (wrapSigned P.bits txnID), .long (wrapSigned P.bits parentID), .str cname]
  let r := wrapSigned 64 id
  free cname
  return r

/-- The function `BeginDatastoreSegment` of `newrelic.go` (lines 129-154). -/
def BeginDatastoreSegment {σ : Type} (P : Platform σ) (txnID parentID : Int)
    (table operation sql rollupName : String) : Shim σ Int := do
  let ctable ← CString P table
  let coperation ← CString P operation
  let csql ← CString P sql
  let crollupName ← CString P rollupName
  let id ← nativeCall P .newrelic_segment_datastore_begin
    [.long (wrapSigned P.bits txnID),
      .long (wrapSigned P.bits parentID),
      .str ctable,
      .str coperation,
      .str csql,
      .str crollupName,
      .fn .newrelic_basic_literal_replacement_obfuscator]
  let r := wrapSigned 64 id
  free crollupName
  free csql
  free coperation
  free ctable
  return r

/-- The function `BeginExternalSegment` of `newrelic.go` (lines 156-163). -/
def BeginExternalSegment {σ : Type} (P : Platform σ) (txnID parentID : Int) (host name : String) :
    Shim σ Int := do
  let chost ← CString P host
  let cname ← CString P name
  let id ← nativeCall P .newrelic_segment_external_begin
    [.long (wrapSigned P.bits txnID), .long (wrapSigned P.bits parentID), .str chost, .str cname]
  let r := wrapSigned 64 id
  free cname
  free chost
  return r

/-- The function `EndSegment` of `newrelic.go` (lines 165-168). -/
def EndSegment {σ : Type} (P : Platform σ) (txnID parentID : Int) : Shim σ (Option String) := do
  let rv ← nativeCall P .newrelic_segment_end
    [.long (wrapSigned P.bits txnID), .long (wrapSigned P.bits parentID)]
  return nrError P.bits rv "end segment"

/-- The function `SetTransactionRequestURL` of `newrelic.go` (lines 170-175). -/
def SetTransactionRequestURL {σ : Type} (P : Platform σ) (txnID : Int) (url : String) :
    Shim σ (Option String) := do
  let curl ← CString P url
  let rv ← nativeCall P .newrelic_transaction_set_request_url
    [.long (wrapSigned P.bits txnID), .str curl]
  let r := nrError P.bits rv "set transaction request url"
  free curl
  return r

/-- The function `EndTransaction` of `newrelic.go` (lines 177-180). -/
def EndTransaction {σ : Type} (P : Platform σ) (txnID : Int) : Shim σ (Option String) := do
  let rv ← nativeCall P .newrelic_transaction_end [.long (wrapSigned P.bits txnID)]
  return nrError P.bits rv "end transaction"

/-- The function `RecordMetric` of `newrelic.go` (lines 182-187).  `val` is the bit pattern of the `float64`. -/
def RecordMetric {σ : Type} (P : Platform σ) (name : String) (val : Nat) :
    Shim σ (Option String) := do
  let cname ← CString P name
  let rv ← nativeCall P .newrelic_record_metric [.str cname, .double val]
  let r := nrError P.bits rv "record metric"
  free cname
  return r


/-! ## The operations as data -/

/-- A call of a public operation of the wrapper with its arguments. -/
inductive Op
  | Init (license appName lang langVersion : String)
  | RequestShutdown (reason : String)
  | BeginTransaction
  | SetTransactionTypeWeb (txnID : Int)
  | SetTransactionTypeOther (txnID : Int)
  | SetTransactionName (txnID : Int) (name : String)
  | SetTransactionCategory (txnID : Int) (category : String)
  | NoticeTransactionError (txnID : Int)
      (exception_type error_message stack_trace delimiter : String)
  | AddTransactionAttribute (txnID : Int) (name value : String)
  | BeginGenericSegment (txnID parentID : Int) (name : String)
  | BeginDatastoreSegment (txnID parentID : Int) (table operation sql rollupName : String)
  | BeginExternalSegment (txnID parentID : Int) (host name : String)
  | EndSegment (txnID parentID : Int)
  | SetTransactionRequestURL (txnID : Int) (url : String)
  | EndTransaction (txnID : Int)
  | RecordMetric (name : String) (val : Nat)
  deriving DecidableEq

/-- What an operation returns: an `error`, or a handle of type `int64`. -/
inductive Result
  | error (e : Option String)
  | handle (id : Int)
  deriving DecidableEq

/-- An operation that returns an `error`, seen as returning a `Result`. -/
def asError {σ : Type} (x : Shim σ (Option String)) : Shim σ Result :=
  fun m => (Result.error (x m).1, (x m).2)

/-- An operation that returns an `int64`, seen as returning a `Result`. -/
def asHandle {σ : Type} (x : Shim σ Int) : Shim σ Result :=
  fun m => (Result.handle (x m).1, (x m).2)

/-- Execution of an operation: the function of the wrapper of that name. -/
def Op.run {σ : Type} (P : Platform σ) : Op → Shim σ Result
  | .Init a b c d => asError (NewRelic.Init P a b c d)
  | .RequestShutdown a => asError (NewRelic.RequestShutdown P a)
  | .BeginTransaction => asHandle (NewRelic.BeginTransaction P)
  | .SetTransactionTypeWeb t => asError (NewRelic.SetTransactionTypeWeb P t)
  | .SetTransactionTypeOther t => asError (NewRelic.SetTransactionTypeOther P t)
  | .SetTransactionName t a => asError (NewRelic.SetTransactionName P t a)
  | .SetTransactionCategory t a => asError (NewRelic.SetTransactionCategory P t a)
  | .NoticeTransactionError t a b c d => asError (NewRelic.NoticeTransactionError P t a b c d)
  | .AddTransactionAttribute t a b => asError (NewRelic.AddTransactionAttribute P t a b)
  | .BeginGenericSegment t p a => asHandle (NewRelic.BeginGenericSegment P t p a)
  | .BeginDatastoreSegment t p a b c d =>
      asHandle (NewRelic.BeginDatastoreSegment P t p a b c d)
  | .BeginExternalSegment t p a b => asHandle (NewRelic.BeginExternalSegment P t p a b)
  | .EndSegment t p => asError (NewRelic.EndSegment P t p)
  | .SetTransactionRequestURL t a => asError (NewRelic.SetTransactionRequestURL P t a)
  | .EndTransaction t => asError (NewRelic.EndTransaction P t)
  | .RecordMetric a v => asError (NewRelic.RecordMetric P a v)

/-- The string arguments of an operation, in the order of its parameters. -/
def Op.strings : Op → List String
  | .Init a b c d => [a, b, c, d]
  | .RequestShutdown a => [a]
  | .BeginTransaction => []
  | .SetTransactionTypeWeb _ => []
  | .SetTransactionTypeOther _ => []
  | .SetTransactionName _ a => [a]
  | .SetTransactionCategory _ a => [a]
  | .NoticeTransactionError _ a b c d => [a, b, c, d]
  | .AddTransactionAttribute _ a b => [a, b]
  | .BeginGenericSegment _ _ a => [a]
  | .BeginDatastoreSegment _ _ a b c d => [a, b, c, d]
  | .BeginExternalSegment _ _ a b => [a, b]
  | .EndSegment _ _ => []
  | .SetTransactionRequestURL _ a => [a]
  | .EndTransaction _ => []
  | .RecordMetric a _ => [a]

/-- The identifier arguments (`txnID`, `parentID`) of an operation, in the order
of its parameters. -/
def Op.ids : Op → List Int
  | .Init _ _ _ _ => []
  | .RequestShutdown _ => []
  | .BeginTransaction => []
  | .SetTransactionTypeWeb t => [t]
  | .SetTransactionTypeOther t => [t]
  | .SetTransactionName t _ => [t]
  | .SetTransactionCategory t _ => [t]
  | .NoticeTransactionError t _ _ _ _ => [t]
  | .AddTransactionAttribute t _ _ => [t]
  | .BeginGenericSegment t p _ => [t, p]
  | .BeginDatastoreSegment t p _ _ _ _ => [t, p]
  | .BeginExternalSegment t p _ _ => [t, p]
  | .EndSegment t p => [t, p]
  | .SetTransactionRequestURL t _ => [t]
  | .EndTransaction t => [t]
  | .RecordMetric _ _ => []

/-- The entry point of the native library that an operation wraps. -/
def Op.entry : Op → Entry
  | .Init _ _ _ _ => .newrelic_init
  | .RequestShutdown _ => .newrelic_request_shutdown
  | .BeginTransaction => .newrelic_transaction_begin
  | .SetTransactionTypeWeb _ => .newrelic_transaction_set_type_web
  | .SetTransactionTypeOther _ => .newrelic_transaction_set_type_other
  | .SetTransactionName _ _ => .newrelic_transaction_set_name
  | .SetTransactionCategory _ _ => .newrelic_transaction_set_category
  | .NoticeTransactionError _ _ _ _ _ => .newrelic_transaction_notice_error
  | .AddTransactionAttribute _ _ _ => .newrelic_transaction_add_attribute
  | .BeginGenericSegment _ _ _ => .newrelic_segment_generic_begin
  | .BeginDatastoreSegment _ _ _ _ _ _ => .newrelic_segment_datastore_begin
  | .BeginExternalSegment _ _ _ _ => .newrelic_segment_external_begin
  | .EndSegment _ _ => .newrelic_segment_end
  | .SetTransactionRequestURL _ _ => .newrelic_transaction_set_request_url
  | .EndTransaction _ => .newrelic_transaction_end
  | .RecordMetric _ _ => .newrelic_record_metric

/-- The fixed name of each of the twelve operations that return an `error`;
`none` for the four operations that return a handle. -/
def Op.errName : Op → Option String
  | .Init _ _ _ _ => some "initialize"
  | .RequestShutdown _ => some "request shutdown"
  | .BeginTransaction => none
  | .SetTransactionTypeWeb _ => some "set transaction type web"
  | .SetTransactionTypeOther _ => some "set transaction type other"
  | .SetTransactionName _ _ => some "set transaction name"
  | .SetTransactionCategory _ _ => some "set transaction category"
  | .NoticeTransactionError _ _ _ _ _ => some "notice transaction error"
  | .AddTransactionAttribute _ _ _ => some "add transaction attribute"
  | .BeginGenericSegment _ _ _ => none
  | .BeginDatastoreSegment _ _ _ _ _ _ => none
  | .BeginExternalSegment _ _ _ _ => none
  | .EndSegment _ _ => some "end segment"
  | .SetTransactionRequestURL _ _ => some "set transaction request url"
  | .EndTransaction _ => some "end transaction"
  | .RecordMetric _ _ => some "record metric"

/-- The four operations that return a handle. -/
def Op.isBegin : Op → Bool
  | .BeginTransaction => true
  | .BeginGenericSegment _ _ _ => true
  | .BeginDatastoreSegment _ _ _ _ _ _ => true
  | .BeginExternalSegment _ _ _ _ => true
  | _ => false

/-- The operation `Init`. -/
def Op.isInit : Op → Bool
  | .Init _ _ _ _ => true
  | _ => false

/-! ## Reading the trace -/

/-- The events that a computation appends to the trace when run in `m`. -/
def eventsOf {σ α : Type} (x : Shim σ α) (m : World σ) : List Event :=
  (x m).2.trace.drop m.trace.length

/-- The buffers allocated, in order: address and bytes. -/
def allocs : List Event → List (Ptr × List UInt8)
  | [] => []
  | Event.alloc p b :: evs => (p, b) :: allocs evs
  | _ :: evs => allocs evs

/-- The addresses released, in order. -/
def frees : List Event → List Ptr
  | [] => []
  | Event.free p :: evs => p :: frees evs
  | _ :: evs => frees evs

/-- The calls of entry points of the native library, in order. -/
def calls : List Event → List Event
  | [] => []
  | Event.call e args mem rv :: evs => Event.call e args mem rv :: calls evs
  | _ :: evs => calls evs

/-- The entry points called, in order. -/
def entries : List Event → List Entry
  | [] => []
  | Event.call e _ _ _ :: evs => e :: entries evs
  | _ :: evs => entries evs

/-- The entry points called with the value each returned, in order. -/
def returns : List Event → List (Entry × Int)
  | [] => []
  | Event.call e _ _ rv :: evs => (e, rv) :: returns evs
  | _ :: evs => returns evs

/-- The arguments of type `long` in a list of arguments, in order. -/
def longsOf : List Arg → List Int
  | [] => []
  | Arg.long v :: as => v :: longsOf as
  | _ :: as => longsOf as

/-- The arguments of type `long` that reached the native library, in order. -/
def longArgs : List Event → List Int
  | [] => []
  | Event.call _ args _ _ :: evs => longsOf args ++ longArgs evs
  | _ :: evs => longArgs evs

/-! ## A fake native layer -/

/-- A native layer whose every entry point returns `rv` and whose allocator
hands out the address after the greatest live one. -/
def stub (bits : Nat) (rv : Int) : Platform Unit where
  bits := bits
  malloc := fun h => (h.map Prod.fst).foldr max 0 + 1
  native := fun _ _ _ s => (rv, s)

/-- The world before any call: no live buffer, empty trace. -/
def world0 : World Unit := { lib := (), heap := [], trace := [] }

/-- The names of the twelve operations that return an error. -/
def errNames : List String :=
  ["initialize", "request shutdown", "set transaction type web", "set transaction type other",
   "set transaction name", "set transaction category", "notice transaction error",
   "add transaction attribute", "end segment", "set transaction request url",
   "end transaction", "record metric"]

/-! ## Lemmas on conversions and texts -/

theorem wrapSigned_of_fits {w : Nat} (hw : 0 < w) {x : Int} (hx : Fits w x) :
    wrapSigned w x = x := by
  obtain ⟨k, rfl⟩ : ∃ k, w = k + 1 := ⟨w - 1, by omega⟩
  have hpow : (2 : Int) ^ (k + 1) = 2 * 2 ^ k := by ring
  have hpos : (0 : Int) < 2 ^ k := by positivity
  unfold Fits at hx
  simp only [Nat.add_sub_cancel] at hx
  unfold wrapSigned
  simp only [Nat.add_sub_cancel, hpow]
  generalize (2 : Int) ^ k = M at hx hpos ⊢
  rcases le_or_lt 0 x with h0 | h0
  · have : x % (2 * M) = x := Int.emod_eq_of_lt h0 (by omega)
    rw [this, if_pos hx.2]
  · have : x % (2 * M) = x + 2 * M := by
      have h1 : (x + 2 * M) % (2 * M) = x % (2 * M) := by simp
      rw [← h1]
      exact Int.emod_eq_of_lt (by omega) (by omega)
    rw [this, if_neg (by omega)]
    omega

/-- The converted value is a value of the type. -/
theorem wrapSigned_fits {w : Nat} (hw : 0 < w) (x : Int) : Fits w (wrapSigned w x) := by
  obtain ⟨k, rfl⟩ : ∃ k, w = k + 1 := ⟨w - 1, by omega⟩
  have hpow : (2 : Int) ^ (k + 1) = 2 * 2 ^ k := by ring
  have hpos : (0 : Int) < 2 ^ k := by positivity
  unfold Fits wrapSigned
  simp only [Nat.add_sub_cancel, hpow]
  generalize (2 : Int) ^ k = M at hpos ⊢
  have h0 : 0 ≤ x % (2 * M) := Int.emod_nonneg x (by omega)
  have h1 : x % (2 * M) < 2 * M := Int.emod_lt_of_pos x (by omega)
  generalize x % (2 * M) = r at h0 h1 ⊢
  by_cases h : r < M
  · rw [if_pos h]
    constructor <;> omega
  · rw [if_neg h]
    constructor <;> omega

/-- The converted value differs from the integer by a multiple of `2 ^ w`. -/
theorem wrapSigned_dvd (w : Nat) (x : Int) : (2 : Int) ^ w ∣ x - wrapSigned w x := by
  unfold wrapSigned
  have h1 : (2 : Int) ^ w ∣ x - x % 2 ^ w := Int.dvd_sub_of_emod_eq rfl
  by_cases h : x % 2 ^ w < 2 ^ (w - 1)
  · simp only [h, if_true]
    exact h1
  · simp only [h, if_false]
    have : x - (x % 2 ^ w - 2 ^ w) = (x - x % 2 ^ w) + 2 ^ w := by ring
    rw [this]
    exact dvd_add h1 (dvd_refl _)

theorem wordBits_pos {w : Nat} (hw : WordBits w) : 0 < w := by
  rcases hw with rfl | rfl <;> decide

/-- A C `int` is a value of the Go type `int`. -/
theorem fits_word {w : Nat} (hw : WordBits w) {x : Int} (hx : Fits 32 x) : Fits w x := by
  rcases hw with rfl | rfl
  · exact hx
  · unfold Fits at *
    norm_num at *
    omega

/-- A C `long` is a value of the Go type `int64`. -/
theorem fits_64 {w : Nat} (hw : WordBits w) {x : Int} (hx : Fits w x) : Fits 64 x := by
  rcases hw with rfl | rfl
  · unfold Fits at *
    norm_num at *
    omega
  · exact hx

/-- The conversion `int(i)` of a C `int` keeps its value. -/
theorem int_of_cint {w : Nat} (hw : WordBits w) {i : Int} (hi : Fits 32 i) :
    wrapSigned w i = i :=
  wrapSigned_of_fits (wordBits_pos hw) (fits_word hw hi)

theorem contains_end (a b : String) : Contains (a ++ b) b := by
  unfold Contains
  exact ⟨a.data, [], by simp⟩

theorem contains_name (name status : String) :
    Contains ("newrelic: " ++ name ++ ": " ++ status) name := by
  unfold Contains
  exact ⟨"newrelic: ".data, (": " ++ status).data, by simp⟩

theorem lookup_none_of_not_mem {α : Type} (k : Int) :
    ∀ l : List (Int × α), k ∉ l.map Prod.fst → l.lookup k = none
  | [], _ => rfl
  | (a, b) :: l, h => by
      simp only [List.map_cons, List.mem_cons, not_or] at h
      have hne : (k == a) = false := by simpa using h.1
      simp only [List.lookup, hne]
      exact lookup_none_of_not_mem k l h.2

/-- The text of the error for a negative status code. -/
theorem nrError_of_lookup {w : Nat} (hw : WordBits w) {code : Int} (hc : Fits 32 code)
    (hneg : code < 0) (name : String) :
    nrError w code name
      = some ("newrelic: " ++ name ++ ": " ++ (statusMap.lookup code).getD "unknown") := by
  unfold nrError
  rw [int_of_cint hw hc, if_pos hneg]
  cases statusMap.lookup code <;> rfl

/-- Every negative key of the table is a C `int` and is mapped to the category
of its entry. -/
theorem statusMap_negative :
    ∀ e ∈ statusMap, e.1 < 0 → statusMap.lookup e.1 = some e.2 ∧ Fits 32 e.1 := by
  decide

set_option maxRecDepth 100000 in
/-- Which category strings occur in the error text of each operation for each
negative code of the table. -/
theorem categories_in_text :
    ∀ name ∈ errNames, ∀ e ∈ statusMap, e.1 < 0 → ∀ c ∈ statusMap.map Prod.snd,
      (Contains ("newrelic: " ++ name ++ ": " ++ e.2) c ↔
        (c = e.2 ∨ (c = "other" ∧ name = "set transaction type other"))) := by
  decide

/-! ## Lemmas on the layer -/

theorem bind_apply {σ α β : Type} (x : Shim σ α) (f : α → Shim σ β) (m : World σ) :
    (x >>= f) m = f (x m).1 (x m).2 := rfl

theorem pure_apply {σ α : Type} (a : α) (m : World σ) :
    (pure a : Shim σ α) m = (a, m) := rfl

theorem fresh_ne {σ : Type} {P : Platform σ} (hF : P.Fresh) (h : Heap) (q : Ptr)
    (hq : q ∈ h.map Prod.fst) : (P.malloc h = q) = False := by
  apply eq_false
  rintro rfl
  exact hF h hq

theorem ne_fresh {σ : Type} {P : Platform σ} (hF : P.Fresh) (h : Heap) (q : Ptr)
    (hq : q ∈ h.map Prod.fst) : (q = P.malloc h) = False := by
  apply eq_false
  rintro rfl
  exact hF h hq

theorem stub_fresh (bits : Nat) (rv : Int) : (stub bits rv).Fresh := by
  intro h hmem
  have key : ∀ l : List Nat, ∀ p ∈ l, p ≤ l.foldr max 0 := by
    intro l
    induction l with
    | nil => simp
    | cons a l ih =>
      intro p hp
      simp only [List.mem_cons] at hp
      simp only [List.foldr_cons]
      rcases hp with rfl | hp
      · exact le_max_left _ _
      · exact le_trans (ih p hp) (le_max_right _ _)
  have := key _ _ hmem
  simp [stub] at this

theorem cBytes_getLast (s : String) : (cBytes s).getLast? = some 0 := by
  simp [cBytes]

/-- The buffers of one operation: one per string argument, holding its bytes and
a final zero; they are released in the reverse order, and the live buffers
after the operation are those before it. -/
theorem run_buffers {σ : Type} (P : Platform σ) (op : Op) (m : World σ) :
    (allocs (eventsOf (op.run P) m)).map Prod.snd = op.strings.map cBytes ∧
    frees (eventsOf (op.run P) m) = ((allocs (eventsOf (op.run P) m)).map Prod.fst).reverse ∧
    (op.run P m).2.heap = m.heap := by
  cases op <;>
    simp [Op.run, asError, asHandle, eventsOf, Init, RequestShutdown, BeginTransaction,
      SetTransactionTypeWeb, SetTransactionTypeOther, SetTransactionName, SetTransactionCategory,
      NoticeTransactionError, AddTransactionAttribute, BeginGenericSegment, BeginDatastoreSegment,
      BeginExternalSegment, EndSegment, SetTransactionRequestURL, EndTransaction, RecordMetric,
      bind_apply, pure_apply, CString, free, nativeCall, allocs, frees, Op.strings, release]

set_option maxHeartbeats 1000000 in
/-- With a fresh allocator the buffers of one operation have distinct addresses. -/
theorem run_allocs_nodup {σ : Type} (P : Platform σ) (hF : P.Fresh) (op : Op) (m : World σ) :
    ((allocs (eventsOf (op.run P) m)).map Prod.fst).Nodup := by
  cases op <;>
    simp [Op.run, asError, asHandle, eventsOf, Init, RequestShutdown, BeginTransaction,
      SetTransactionTypeWeb, SetTransactionTypeOther, SetTransactionName, SetTransactionCategory,
      NoticeTransactionError, AddTransactionAttribute, BeginGenericSegment, BeginDatastoreSegment,
      BeginExternalSegment, EndSegment, SetTransactionRequestURL, EndTransaction, RecordMetric,
      bind_apply, pure_apply, CString, free, nativeCall, allocs] <;>
    simp only [fresh_ne hF, ne_fresh hF, List.map_cons, List.mem_cons, true_or, or_true,
      not_false_eq_true, and_self]

/-- The entry points one operation calls. -/
theorem run_entries {σ : Type} (P : Platform σ) (op : Op) (m : World σ) :
    entries (eventsOf (op.run P) m) =
      if op.isInit then [Entry.newrelic_register_message_handler, Entry.newrelic_init]
      else [op.entry] := by
  cases op <;>
    simp [Op.run, asError, asHandle, eventsOf, Init, RequestShutdown, BeginTransaction,
      SetTransactionTypeWeb, SetTransactionTypeOther, SetTransactionName, SetTransactionCategory,
      NoticeTransactionError, AddTransactionAttribute, BeginGenericSegment, BeginDatastoreSegment,
      BeginExternalSegment, EndSegment, SetTransactionRequestURL, EndTransaction, RecordMetric,
      bind_apply, pure_apply, CString, free, nativeCall, entries, Op.isInit, Op.entry]

/-- The value an operation returns, from the value its entry point returned. -/
theorem run_result {σ : Type} (P : Platform σ) (op : Op) (m : World σ) :
    ∃ rv, (returns (eventsOf (op.run P) m)).getLast? = some (op.entry, rv) ∧
      (op.isInit = false → returns (eventsOf (op.run P) m) = [(op.entry, rv)]) ∧
      (op.run P m).1 =
        match op.errName with
        | some name => Result.error (nrError P.bits rv name)
        | none => Result.handle (wrapSigned 64 rv) := by
  cases op <;>
    simp [Op.run, asError, asHandle, eventsOf, Init, RequestShutdown, BeginTransaction,
      SetTransactionTypeWeb, SetTransactionTypeOther, SetTransactionName, SetTransactionCategory,
      NoticeTransactionError, AddTransactionAttribute, BeginGenericSegment, BeginDatastoreSegment,
      BeginExternalSegment, EndSegment, SetTransactionRequestURL, EndTransaction, RecordMetric,
      bind_apply, pure_apply, CString, free, nativeCall, returns, Op.entry, Op.errName, Op.isInit]

/-- The `long` arguments that reach the native library are the identifiers of
the operation, each converted to a C `long`. -/
theorem run_longArgs {σ : Type} (P : Platform σ) (op : Op) (m : World σ) :
    longArgs (eventsOf (op.run P) m) = op.ids.map (wrapSigned P.bits) := by
  cases op <;>
    simp [Op.run, asError, asHandle, eventsOf, Init, RequestShutdown, BeginTransaction,
      SetTransactionTypeWeb, SetTransactionTypeOther, SetTransactionName, SetTransactionCategory,
      NoticeTransactionError, AddTransactionAttribute, BeginGenericSegment, BeginDatastoreSegment,
      BeginExternalSegment, EndSegment, SetTransactionRequestURL, EndTransaction, RecordMetric,
      bind_apply, pure_apply, CString, free, nativeCall, longArgs, longsOf, Op.ids]

theorem errName_mem {op : Op} {name : String} (h : op.errName = some name) :
    name ∈ errNames := by
  cases op <;> simp [Op.errName] at h <;> subst h <;> decide

theorem begin_errName {op : Op} (h : op.isBegin = true) :
    op.errName = none ∧ op.isInit = false := by
  cases op <;> simp [Op.isBegin] at h <;> exact ⟨rfl, rfl⟩

/-- The native call of `BeginDatastoreSegment`. -/
theorem datastore_call {σ : Type} (P : Platform σ) (hF : P.Fresh) (txnID parentID : Int)
    (table operation sql rollupName : String) (m : World σ) :
    ∃ ctable coperation csql crollupName mem rv,
      calls (eventsOf (BeginDatastoreSegment P txnID parentID table operation sql rollupName) m)
        = [Event.call Entry.newrelic_segment_datastore_begin
            [Arg.long (wrapSigned P.bits txnID), Arg.long (wrapSigned P.bits parentID),
              Arg.str ctable, Arg.str coperation, Arg.str csql, Arg.str crollupName,
              Arg.fn CFn.newrelic_basic_literal_replacement_obfuscator] mem rv] ∧
      mem.lookup ctable = some (cBytes table) ∧
      mem.lookup coperation = some (cBytes operation) ∧
      mem.lookup csql = some (cBytes sql) ∧
      mem.lookup crollupName = some (cBytes rollupName) := by
  simp only [eventsOf, BeginDatastoreSegment, bind_apply, pure_apply, CString, free, nativeCall,
    List.append_assoc, List.drop_left, List.singleton_append, calls]
  refine ⟨_, _, _, _, _, _, rfl, ?_⟩
  have hb : ∀ (h : Heap) (q : Ptr), q ∈ h.map Prod.fst → (q == P.malloc h) = false := by
    intro h q hq
    simpa using fun e : q = P.malloc h => hF h (e ▸ hq)
  simp [List.lookup, hb]


/-- Over a stub every entry point returns the value of the stub. -/
theorem stub_returns (bits : Nat) (rv : Int) (op : Op) (m : World Unit) (x : Entry × Int)
    (hx : (returns (eventsOf (op.run (stub bits rv)) m)).getLast? = some x) : x.2 = rv := by
  cases op <;>
    simp [Op.run, asError, asHandle, eventsOf, Init, RequestShutdown, BeginTransaction,
      SetTransactionTypeWeb, SetTransactionTypeOther, SetTransactionName, SetTransactionCategory,
      NoticeTransactionError, AddTransactionAttribute, BeginGenericSegment, BeginDatastoreSegment,
      BeginExternalSegment, EndSegment, SetTransactionRequestURL, EndTransaction, RecordMetric,
      bind_apply, pure_apply, CString, free, nativeCall, returns, stub] at hx <;>
    simp [← hx]

/-! ## The claims -/

/-- C1: for every native status code `i` (a C `int`) and every operation name,
`nrError i name` is `nil` if and only if `i ≥ 0`: zero and every positive code
give no error, every negative code gives an error. -/
theorem nrError_nil_iff (w : Nat) (hw : WordBits w) (i : Int) (hi : Fits 32 i) (name : String) :
    nrError w i name = none ↔ 0 ≤ i := by
  unfold nrError
  rw [int_of_cint hw hi]
  by_cases h : i < 0
  · simp [h]
  · simp [h]; omega

theorem nrError_nil_iff_witness :
    WordBits 64 ∧ Fits 32 (-1) ∧ (nrError 64 (-1) "end segment" = none ↔ (0 : Int) ≤ -1) :=
  ⟨Or.inr rfl, by decide, nrError_nil_iff 64 (Or.inr rfl) (-1) (by decide) "end segment"⟩

/-- C2: for every code of the known-negative table and every operation name,
the code is a key of `statusMap` mapped to the category listed, and `nrError`
returns the error `newrelic: <name>: <category>`, a text that contains the
category and the operation name. -/
theorem nrError_known (w : Nat) (hw : WordBits w) (code : Int) (category : String)
    (hcode : (code, category) ∈
      [ ((-0x10001 : Int), "other"), (-0x20001, "disabled"), (-0x30001, "invalid param"),
        (-0x30002, "invalid id"), (-0x40001, "transaction not started"),
        (-0x40002, "transaction in progress"), (-0x40003, "transaction not named") ])
    (name : String) :
    statusMap.lookup code = some category ∧
    nrError w code name = some ("newrelic: " ++ name ++ ": " ++ category) ∧
    Contains ("newrelic: " ++ name ++ ": " ++ category) category ∧
    Contains ("newrelic: " ++ name ++ ": " ++ category) name := by
  have hl : statusMap.lookup code = some category ∧ Fits 32 code ∧ code < 0 := by
    have hmem : (code, category) ∈ statusMap := List.mem_cons_of_mem _ hcode
    have hneg : (code, category).1 < 0 := by
      revert hcode
      generalize (code, category) = e
      revert e
      decide
    exact ⟨(statusMap_negative _ hmem hneg).1, (statusMap_negative _ hmem hneg).2, hneg⟩
  refine ⟨hl.1, ?_, contains_end _ _, contains_name _ _⟩
  rw [nrError_of_lookup hw hl.2.1 hl.2.2, hl.1]
  rfl

theorem nrError_known_witness :
    WordBits 32 ∧
    nrError 32 (-0x40002) "end transaction"
      = some ("newrelic: " ++ "end transaction" ++ ": " ++ "transaction in progress") :=
  ⟨Or.inl rfl,
    (nrError_known 32 (Or.inl rfl) (-0x40002) "transaction in progress" (by decide)
      "end transaction").2.1⟩

/-- C3: for every negative status code that is not a key of `statusMap` and
every operation name, `nrError` returns the error `newrelic: <name>: unknown`,
a text that contains `unknown` and the operation name. -/
theorem nrError_unknown (w : Nat) (hw : WordBits w) (i : Int) (hi : Fits 32 i) (hneg : i < 0)
    (hkey : i ∉ statusMap.map Prod.fst) (name : String) :
    nrError w i name = some ("newrelic: " ++ name ++ ": " ++ "unknown") ∧
    Contains ("newrelic: " ++ name ++ ": " ++ "unknown") "unknown" ∧
    Contains ("newrelic: " ++ name ++ ": " ++ "unknown") name := by
  refine ⟨?_, contains_end _ _, contains_name _ _⟩
  rw [nrError_of_lookup hw hi hneg, lookup_none_of_not_mem i statusMap hkey]
  rfl

theorem nrError_unknown_witness :
    WordBits 32 ∧ Fits 32 (-7) ∧ (-7 : Int) < 0 ∧ (-7 : Int) ∉ statusMap.map Prod.fst ∧
    nrError 32 (-7) "record metric"
      = some ("newrelic: " ++ "record metric" ++ ": " ++ "unknown") :=
  ⟨Or.inl rfl, by decide, by decide, by decide,
    (nrError_unknown 32 (Or.inl rfl) (-7) (by decide) (by decide) (by decide)
      "record metric").1⟩

/-- C4: each of the twelve operations that return an error returns exactly
`nrError status name`, where `status` is the value its entry point of the
native library returned (the last call the operation makes) and `name` is the
fixed name of the operation, for all arguments and in every world. -/
theorem error_ops_return_nrError {σ : Type} (P : Platform σ) (op : Op) (m : World σ)
    (name : String) (hname : op.errName = some name) :
    ∃ status, (returns (eventsOf (op.run P) m)).getLast? = some (op.entry, status) ∧
      (op.run P m).1 = Result.error (nrError P.bits status name) := by
  obtain ⟨rv, h1, -, h3⟩ := run_result P op m
  rw [hname] at h3
  exact ⟨rv, h1, h3⟩

/-- The example of C4: `Init` over a stub that returns 0 gives no error; over a
stub that returns -0x30001 it gives an error whose text contains
`invalid param` and `initialize`. -/
theorem error_ops_return_nrError_witness :
    (∀ (license appName lang langVersion : String) (m : World Unit),
      ((Op.Init license appName lang langVersion).run (stub 64 0) m).1 = Result.error none) ∧
    (∀ (license appName lang langVersion : String) (m : World Unit),
      ∃ text,
        ((Op.Init license appName lang langVersion).run (stub 64 (-0x30001)) m).1
          = Result.error (some text) ∧
        Contains text "invalid param" ∧ Contains text "initialize") := by
  constructor
  · intro license appName lang langVersion m
    obtain ⟨status, h1, h2⟩ :=
      error_ops_return_nrError (stub 64 0) (Op.Init license appName lang langVersion) m
        "initialize" rfl
    have hs : status = 0 := by
      have := stub_returns 64 0 _ m _ h1
      simpa using this
    subst hs
    rw [h2]
    rfl
  · intro license appName lang langVersion m
    obtain ⟨status, h1, h2⟩ :=
      error_ops_return_nrError (stub 64 (-0x30001)) (Op.Init license appName lang langVersion) m
        "initialize" rfl
    have hs : status = -0x30001 := by
      have := stub_returns 64 (-0x30001) _ m _ h1
      simpa using this
    subst hs
    exact ⟨"newrelic: initialize: invalid param", by rw [h2]; rfl, by decide, by decide⟩

/-- C5: each of `BeginTransaction`, `BeginGenericSegment`,
`BeginDatastoreSegment` and `BeginExternalSegment` makes one native call, of
its begin entry point, and returns as a handle exactly the value `h` that call
produced, for every `h` of the C type `long`, negative ones included; the
value is never turned into an error. -/
theorem begin_ops_return_raw_handle {σ : Type} (P : Platform σ) (hw : WordBits P.bits)
    (op : Op) (hop : op.isBegin = true) (m : World σ) :
    ∃ h, returns (eventsOf (op.run P) m) = [(op.entry, h)] ∧
      (Fits P.bits h → (op.run P m).1 = Result.handle h) := by
  obtain ⟨rv, -, h2, h3⟩ := run_result P op m
  obtain ⟨hn, hi⟩ := begin_errName hop
  rw [hn] at h3
  refine ⟨rv, h2 hi, fun hfit => ?_⟩
  rw [h3, wrapSigned_of_fits (by decide) (fits_64 hw hfit)]

theorem begin_ops_return_raw_handle_witness :
    WordBits 32 ∧ Op.isBegin (Op.BeginGenericSegment 7 7 "render") = true ∧
    Fits 32 (-5) ∧
    ((Op.BeginGenericSegment 7 7 "render").run (stub 32 (-5)) world0).1 = Result.handle (-5) := by
  obtain ⟨h, h1, h2⟩ :=
    begin_ops_return_raw_handle (stub 32 (-5)) (Or.inl rfl) (Op.BeginGenericSegment 7 7 "render")
      rfl world0
  have hs : h = -5 := by
    have := stub_returns 32 (-5) _ world0 (_, h) (by rw [h1]; rfl)
    simpa using this
  subst hs
  exact ⟨Or.inl rfl, rfl, by decide, h2 (by decide)⟩

/-- C6: for every operation, over every native layer with a fresh allocator and
whatever the native call returns: each string argument is copied to one
buffer that ends with a zero byte; the numbers of allocations and of releases
both equal the number of string arguments; every released buffer was allocated
by the call; every allocated buffer is released exactly once; and when the
operation returns the live buffers are those of before. -/
theorem string_buffers_released_once {σ : Type} (P : Platform σ) (hF : P.Fresh) (op : Op)
    (m : World σ) :
    ∃ evs, eventsOf (op.run P) m = evs ∧
      (allocs evs).map Prod.snd = op.strings.map cBytes ∧
      (∀ b ∈ (allocs evs).map Prod.snd, b.getLast? = some 0) ∧
      (allocs evs).length = op.strings.length ∧
      (frees evs).length = op.strings.length ∧
      (∀ p ∈ frees evs, p ∈ (allocs evs).map Prod.fst) ∧
      (∀ p ∈ (allocs evs).map Prod.fst, (frees evs).count p = 1) ∧
      (op.run P m).2.heap = m.heap := by
  obtain ⟨h1, h2, h3⟩ := run_buffers P op m
  have h4 := run_allocs_nodup P hF op m
  have hlen : (allocs (eventsOf (op.run P) m)).length = op.strings.length := by
    simpa using congrArg List.length h1
  refine ⟨_, rfl, h1, ?_, hlen, ?_, ?_, ?_, h3⟩
  · intro b hb
    rw [h1] at hb
    obtain ⟨s, -, rfl⟩ := List.mem_map.1 hb
    exact cBytes_getLast s
  · rw [h2]
    simpa using hlen
  · intro p hp
    rw [h2] at hp
    exact List.mem_reverse.1 hp
  · intro p hp
    rw [h2]
    exact List.count_eq_one_of_mem (List.nodup_reverse.2 h4) (List.mem_reverse.2 hp)

theorem string_buffers_released_once_witness :
    (stub 64 (-0x30001)).Fresh ∧
    ∃ evs,
      eventsOf ((Op.NoticeTransactionError 1 "E" "boom" "a|b" "|").run (stub 64 (-0x30001)))
        world0 = evs ∧
      (allocs evs).map Prod.snd
        = (Op.NoticeTransactionError 1 "E" "boom" "a|b" "|").strings.map cBytes ∧
      (∀ b ∈ (allocs evs).map Prod.snd, b.getLast? = some 0) ∧
      (allocs evs).length = (Op.NoticeTransactionError 1 "E" "boom" "a|b" "|").strings.length ∧
      (frees evs).length = (Op.NoticeTransactionError 1 "E" "boom" "a|b" "|").strings.length ∧
      (∀ p ∈ frees evs, p ∈ (allocs evs).map Prod.fst) ∧
      (∀ p ∈ (allocs evs).map Prod.fst, (frees evs).count p = 1) ∧
      ((Op.NoticeTransactionError 1 "E" "boom" "a|b" "|").run (stub 64 (-0x30001)) world0).2.heap
        = world0.heap :=
  ⟨stub_fresh 64 (-0x30001),
    string_buffers_released_once (stub 64 (-0x30001)) (stub_fresh 64 (-0x30001))
      (Op.NoticeTransactionError 1 "E" "boom" "a|b" "|") world0⟩

/-- C7 as stated fails: `Init` calls two entry points of the native library,
`newrelic_register_message_handler` and then `newrelic_init`. -/
theorem init_calls_two_entry_points :
    entries (eventsOf ((Op.Init "license" "app" "go" "1.4").run (stub 64 0)) world0)
      = [Entry.newrelic_register_message_handler, Entry.newrelic_init] ∧
    (entries (eventsOf ((Op.Init "license" "app" "go" "1.4").run (stub 64 0)) world0)).length
      ≠ 1 := by
  rw [run_entries]
  decide

/-- C7, amended: every public operation other than `Init` performs exactly one
call into the native library, of its own entry point; `Init` performs exactly
two, `newrelic_register_message_handler` and then `newrelic_init`.  No entry
point is called twice. -/
theorem native_calls_of_op {σ : Type} (P : Platform σ) (op : Op) (m : World σ) :
    entries (eventsOf (op.run P) m) =
      (if op.isInit then [Entry.newrelic_register_message_handler, Entry.newrelic_init]
       else [op.entry]) ∧
    (entries (eventsOf (op.run P) m)).length = (if op.isInit then 2 else 1) ∧
    (entries (eventsOf (op.run P) m)).Nodup := by
  rw [run_entries]
  cases h : op.isInit <;> simp

/-- C8 as stated fails: when the native call of `SetTransactionTypeOther`
returns -0x20001, mapped to `disabled`, the error text also contains the
category string `other`. -/
theorem set_type_other_text_contains_other :
    ((Op.SetTransactionTypeOther 1).run (stub 64 (-0x20001)) world0).1
      = Result.error (some "newrelic: set transaction type other: disabled") ∧
    statusMap.lookup (-0x20001) = some "disabled" ∧
    "other" ∈ statusMap.map Prod.snd ∧
    "other" ≠ "disabled" ∧
    Contains "newrelic: set transaction type other: disabled" "other" := by
  refine ⟨?_, by decide, by decide, by decide, by decide⟩
  decide

/-- C8, amended: for every known negative status code and every one of the
twelve operations that return an error, the error text is exactly
`newrelic: <operation name>: <mapped category>`; it contains the mapped
category, and a category string of the status table other than the mapped one
occurs in it only in one case: the string `other` in the text of
`SetTransactionTypeOther`, whose name `set transaction type other` contains
it. -/
theorem error_text_categories {σ : Type} (P : Platform σ) (hw : WordBits P.bits) (op : Op)
    (m : World σ) (name : String) (hname : op.errName = some name)
    (code : Int) (category : String) (hmem : (code, category) ∈ statusMap) (hneg : code < 0)
    (hret : (returns (eventsOf (op.run P) m)).getLast? = some (op.entry, code)) :
    (op.run P m).1 = Result.error (some ("newrelic: " ++ name ++ ": " ++ category)) ∧
    Contains ("newrelic: " ++ name ++ ": " ++ category) category ∧
    ∀ c ∈ statusMap.map Prod.snd, c ≠ category →
      (Contains ("newrelic: " ++ name ++ ": " ++ category) c ↔
        (c = "other" ∧ name = "set transaction type other")) := by
  obtain ⟨rv, h1, -, h3⟩ := run_result P op m
  rw [hname] at h3
  have hrv : rv = code := by
    rw [h1] at hret
    simpa using hret
  subst hrv
  have hl : statusMap.lookup rv = some category ∧ Fits 32 rv :=
    statusMap_negative (rv, category) hmem hneg
  refine ⟨?_, contains_end _ _, ?_⟩
  · have h4 : (op.run P m).1 = Result.error (nrError P.bits rv name) := h3
    rw [h4, nrError_of_lookup hw hl.2 hneg, hl.1]
    rfl
  · intro c hc hne
    have := categories_in_text name (errName_mem hname) (rv, category) hmem hneg c hc
    simp only [hne, false_or] at this
    exact this

theorem error_text_categories_witness :
    WordBits 64 ∧ Op.errName (Op.EndSegment 3 4) = some "end segment" ∧
    ((-0x40001 : Int), "transaction not started") ∈ statusMap ∧ (-0x40001 : Int) < 0 ∧
    (returns (eventsOf ((Op.EndSegment 3 4).run (stub 64 (-0x40001))) world0)).getLast?
      = some ((Op.EndSegment 3 4).entry, -0x40001) ∧
    ((Op.EndSegment 3 4).run (stub 64 (-0x40001)) world0).1
      = Result.error (some ("newrelic: " ++ "end segment" ++ ": " ++ "transaction not started")) ∧
    Contains ("newrelic: " ++ "end segment" ++ ": " ++ "transaction not started")
      "transaction not started" ∧
    ∀ c ∈ statusMap.map Prod.snd, c ≠ "transaction not started" →
      (Contains ("newrelic: " ++ "end segment" ++ ": " ++ "transaction not started") c ↔
        (c = "other" ∧ "end segment" = "set transaction type other")) :=
  ⟨Or.inr rfl, rfl, by decide, by decide, by decide,
    error_text_categories (stub 64 (-0x40001)) (Or.inr rfl) (Op.EndSegment 3 4) world0
      "end segment" rfl (-0x40001) "transaction not started" (by decide) (by decide)
      (by decide)⟩

/-- C9 as stated fails: where the C type `long` has 32 bits,
`BeginDatastoreSegment` called with the transaction id 4294967301, a value of
`int64`, makes its native call with the transaction id 5. -/
theorem datastore_segment_id_truncated :
    Fits 64 4294967301 ∧
    longArgs (eventsOf
        (BeginDatastoreSegment (stub 32 0) 4294967301 6 "users" "select" "SELECT 1"
          "users/select")
        world0) = [5, 6] ∧
    (5 : Int) ≠ 4294967301 := by
  refine ⟨by decide, ?_, by decide⟩
  simp [eventsOf, BeginDatastoreSegment, bind_apply, pure_apply, CString, free, nativeCall,
    longArgs, longsOf, world0, stub]
  decide

/-- C9, amended: `BeginDatastoreSegment` makes one native call, of
`newrelic_segment_datastore_begin`, whose arguments are, in this order: the
transaction id and the parent id, each converted to a C `long` (the value of
that type that differs from the id by a multiple of `2 ^ bits`: the id itself
whenever the id is a value of a C `long`, so every `int64` id where `long` has
64 bits); the buffers of table, operation, query text and rollup name, each
holding at the time of the call the UTF-8 bytes of the Go string, unchanged,
followed by a zero byte; and the basic literal-replacement obfuscator,
whatever the arguments are. -/
theorem datastore_segment_call {σ : Type} (P : Platform σ) (hw : WordBits P.bits)
    (hF : P.Fresh) (txnID parentID : Int) (table operation sql rollupName : String)
    (m : World σ) :
    ∃ tid pid ctable coperation csql crollupName mem rv,
      calls (eventsOf (BeginDatastoreSegment P txnID parentID table operation sql rollupName) m)
        = [Event.call Entry.newrelic_segment_datastore_begin
            [Arg.long tid, Arg.long pid,
              Arg.str ctable, Arg.str coperation, Arg.str csql, Arg.str crollupName,
              Arg.fn CFn.newrelic_basic_literal_replacement_obfuscator] mem rv] ∧
      Fits P.bits tid ∧ (2 : Int) ^ P.bits ∣ txnID - tid ∧
      Fits P.bits pid ∧ (2 : Int) ^ P.bits ∣ parentID - pid ∧
      (Fits P.bits txnID → tid = txnID) ∧
      (Fits P.bits parentID → pid = parentID) ∧
      (P.bits = 64 → Fits 64 txnID → Fits 64 parentID → tid = txnID ∧ pid = parentID) ∧
      mem.lookup ctable = some (table.toUTF8.data.toList ++ [0]) ∧
      mem.lookup coperation = some (operation.toUTF8.data.toList ++ [0]) ∧
      mem.lookup csql = some (sql.toUTF8.data.toList ++ [0]) ∧
      mem.lookup crollupName = some (rollupName.toUTF8.data.toList ++ [0]) := by
  obtain ⟨a, b, c, d, mem, rv, h1, h2, h3, h4, h5⟩ :=
    datastore_call P hF txnID parentID table operation sql rollupName m
  have hpos := wordBits_pos hw
  refine ⟨wrapSigned P.bits txnID, wrapSigned P.bits parentID, a, b, c, d, mem, rv, h1,
    wrapSigned_fits hpos txnID, wrapSigned_dvd P.bits txnID,
    wrapSigned_fits hpos parentID, wrapSigned_dvd P.bits parentID,
    wrapSigned_of_fits hpos, wrapSigned_of_fits hpos, ?_, h2, h3, h4, h5⟩
  intro h64 ht hp
  rw [h64]
  exact ⟨wrapSigned_of_fits (by decide) ht, wrapSigned_of_fits (by decide) hp⟩

theorem datastore_segment_call_witness :
    WordBits 64 ∧ (stub 64 9).Fresh ∧
    ∃ tid pid ctable coperation csql crollupName mem rv,
      calls (eventsOf
          (BeginDatastoreSegment (stub 64 9) 5 6 "users" "select" "SELECT 1" "users/select")
          world0)
        = [Event.call Entry.newrelic_segment_datastore_begin
            [Arg.long tid, Arg.long pid,
              Arg.str ctable, Arg.str coperation, Arg.str csql, Arg.str crollupName,
              Arg.fn CFn.newrelic_basic_literal_replacement_obfuscator] mem rv] ∧
      Fits 64 tid ∧ (2 : Int) ^ 64 ∣ 5 - tid ∧
      Fits 64 pid ∧ (2 : Int) ^ 64 ∣ 6 - pid ∧
      (Fits 64 5 → tid = 5) ∧
      (Fits 64 6 → pid = 6) ∧
      ((64 : Nat) = 64 → Fits 64 5 → Fits 64 6 → tid = 5 ∧ pid = 6) ∧
      mem.lookup ctable = some ("users".toUTF8.data.toList ++ [0]) ∧
      mem.lookup coperation = some ("select".toUTF8.data.toList ++ [0]) ∧
      mem.lookup csql = some ("SELECT 1".toUTF8.data.toList ++ [0]) ∧
      mem.lookup crollupName = some ("users/select".toUTF8.data.toList ++ [0]) :=
  ⟨Or.inr rfl, stub_fresh 64 9,
    datastore_segment_call (stub 64 9) (Or.inr rfl) (stub_fresh 64 9) 5 6
      "users" "select" "SELECT 1" "users/select" world0⟩

/-- C10: handles round-trip.  A begin operation `b` makes one native call; let
`h` be the value it produced and `v` the value `b` returns.  If `h` is a value
of the C type `long` then, for every operation, an identifier argument equal to
`v` reaches the native call, at the same position, as exactly `h`.  With a
64-bit `long`, every list of `int64` identifiers reaches the native call
unchanged. -/
theorem handle_round_trip {σ : Type} (P : Platform σ) (hw : WordBits P.bits)
    (b : Op) (hb : b.isBegin = true) (mb : World σ) (op : Op) (m : World σ) :
    ∃ h v, returns (eventsOf (b.run P) mb) = [(b.entry, h)] ∧
      (b.run P mb).1 = Result.handle v ∧
      (Fits P.bits h →
        ∀ k : Nat, op.ids[k]? = some v → (longArgs (eventsOf (op.run P) m))[k]? = some h) ∧
      (P.bits = 64 → (∀ i ∈ op.ids, Fits 64 i) →
        longArgs (eventsOf (op.run P) m) = op.ids) := by
  obtain ⟨rv, -, h2, h3⟩ := run_result P b mb
  obtain ⟨hn, hi⟩ := begin_errName hb
  rw [hn] at h3
  refine ⟨rv, wrapSigned 64 rv, h2 hi, h3, ?_, ?_⟩
  · intro hfit k hk
    rw [run_longArgs, List.getElem?_map, hk, Option.map_some',
      wrapSigned_of_fits (by decide) (fits_64 hw hfit),
      wrapSigned_of_fits (wordBits_pos hw) hfit]
  · intro h64 hall
    rw [run_longArgs, h64]
    conv_rhs => rw [← List.map_id op.ids]
    exact List.map_congr_left fun i hi => wrapSigned_of_fits (by decide) (hall i hi)

theorem handle_round_trip_witness :
    WordBits 32 ∧ Op.isBegin Op.BeginTransaction = true ∧
    ∃ h v, returns (eventsOf (Op.BeginTransaction.run (stub 32 (-3))) world0)
        = [(Op.BeginTransaction.entry, h)] ∧
      (Op.BeginTransaction.run (stub 32 (-3)) world0).1 = Result.handle v ∧
      (Fits 32 h →
        ∀ k : Nat, (Op.EndSegment (-3) (-3)).ids[k]? = some v →
          (longArgs (eventsOf ((Op.EndSegment (-3) (-3)).run (stub 32 (-3))) world0))[k]?
            = some h) ∧
      ((32 : Nat) = 64 → (∀ i ∈ (Op.EndSegment (-3) (-3)).ids, Fits 64 i) →
        longArgs (eventsOf ((Op.EndSegment (-3) (-3)).run (stub 32 (-3))) world0)
          = (Op.EndSegment (-3) (-3)).ids) :=
  ⟨Or.inl rfl, rfl,
    handle_round_trip (stub 32 (-3)) (Or.inl rfl) Op.BeginTransaction rfl world0
      (Op.EndSegment (-3) (-3)) world0⟩

end NewRelic
